import Mathlib

/-!
Shallow embedding of the tic-tac-toe engine in `src/app.js`.

The JavaScript keeps three mutable globals: `board` (an array of nine
cells, each `"X"`, `"O"` or `null`), `currentPlayer` and `gameOver`.
We model a cell as `Option Mark` (`none` = JS `null`), the three globals
as a `GameState` record, and the functions `getWinner`, `isDraw`,
`attemptMove` and `restartGame` as pure functions on that record.
JS array indexing with an arbitrary integer is modelled by `lookupJS`,
whose `none` result plays the role of JS `undefined` (out-of-range read):
`undefined !== null` holds in JS, which is why `attemptMove`'s occupied
check treats an out-of-range index like an occupied cell.
The arrow-key focus movement of `handleKeyDown` (lines 188-202) is the
pure function the spec calls `focusStep`.
-/

/-- The two players' symbols, `"X"` and `"O"` in the source. -/
inductive Mark : Type
  | X : Mark
  | O : Mark
deriving DecidableEq, Repr

/-- A board cell: `none` models the JS `null` of an empty cell. -/
abbrev Cell : Type := Option Mark

/-- The three mutable globals of `src/app.js` lines 15-17. -/
structure GameState : Type where
  board : List Cell
  currentPlayer : Mark
  gameOver : Bool
deriving DecidableEq, Repr

/-- `WIN_LINES` from `src/app.js` lines 23-32: 3 rows, 3 columns, 2 diagonals,
in that fixed order. -/
def WIN_LINES : List (Nat × Nat × Nat) :=
  [(0, 1, 2), (3, 4, 5), (6, 7, 8),
   (0, 3, 6), (1, 4, 7), (2, 5, 8),
   (0, 4, 8), (2, 4, 6)]

/-- JS array read `board[i]` with an arbitrary integer index: in range it
yields the cell, out of range (negative or past the end) it yields
`undefined`, modelled as `none`. -/
def lookupJS (b : List Cell) (i : Int) : Option Cell :=
  if i < 0 then none else b.get? i.toNat

/-- Reading a cell the way `getWinner` does: `board[a]` used as a value in
`board[a] && board[a] === board[b] && board[a] === board[c]`.  Both JS
`null` and `undefined` are falsy and compare unequal to a mark, so both
collapse to `none`. -/
def getCell (b : List Cell) (i : Nat) : Cell :=
  (b.get? i).getD none

/-- One iteration of the `getWinner` loop body (`src/app.js` line 90):
the mark winning on line `t`, if any. -/
def winLine (b : List Cell) (t : Nat × Nat × Nat) : Option Mark :=
  match getCell b t.1 with
  | some m => if getCell b t.2.1 = some m ∧ getCell b t.2.2 = some m then some m else none
  | none => none

/-- The `for (const line of WIN_LINES)` loop of `getWinner`: first
winning line in list order, with its mark. -/
def getWinnerAux (b : List Cell) : List (Nat × Nat × Nat) → Option (Mark × (Nat × Nat × Nat))
  | [] => none
  | t :: rest =>
    match winLine b t with
    | some m => some (m, t)
    | none => getWinnerAux b rest

/-- `getWinner` from `src/app.js` lines 87-95. -/
def getWinner (b : List Cell) : Option (Mark × (Nat × Nat × Nat)) :=
  getWinnerAux b WIN_LINES

/-- `isDraw` from `src/app.js` lines 97-99:
`board.every((v) => v !== null) && !getWinner()`. -/
def isDraw (b : List Cell) : Bool :=
  b.all (fun v => v.isSome) && (getWinner b).isNone

/-- The status classification the spec calls `evaluate`: the code computes
it in `render` (lines 114-132) by first consulting `getWinner`, then
`isDraw`, else "still playing". -/
inductive Status : Type
  | InProgress : Status
  | Won : Mark → Nat × Nat × Nat → Status
  | Draw : Status
deriving DecidableEq, Repr

/-- `evaluate`: the status `render` derives from a board — `Won` on the
first winning line, else `Draw` when `isDraw`, else `InProgress`. -/
def evaluate (b : List Cell) : Status :=
  match getWinner b with
  | some (m, l) => Status.Won m l
  | none => if isDraw b then Status.Draw else Status.InProgress

/-- `currentPlayer === "X" ? "O" : "X"` (`src/app.js` line 150). -/
def switchMark : Mark → Mark
  | Mark.X => Mark.O
  | Mark.O => Mark.X

/-- The error taxonomy of the spec's `applyMove`.  The code signals
`gameOver` by the silent early return of line 139 and `cellOccupied` by
the announcement of line 143; it has no `invalidIndex` branch (the
constructor exists only to state the spec's claim about it). -/
inductive MoveError : Type
  | gameOver : MoveError
  | invalidIndex : MoveError
  | cellOccupied : MoveError
deriving DecidableEq, Repr

/-- `attemptMove` from `src/app.js` lines 138-154, together with the
`gameOver` update its `render()` call performs (lines 114-132): the new
state paired with `none` on success and the rejection reason otherwise.
The occupied check is the JS `board[index] !== null`, which also fires on
any out-of-range index because the lookup yields `undefined`. -/
def attemptMove (s : GameState) (index : Int) : GameState × Option MoveError :=
  if s.gameOver then (s, some MoveError.gameOver)
  else if lookupJS s.board index ≠ some none then (s, some MoveError.cellOccupied)
  else
    let b := s.board.set index.toNat (some s.currentPlayer)
    let go := (getWinner b).isSome || isDraw b
    ({ board := b, currentPlayer := switchMark s.currentPlayer, gameOver := go }, none)

/-- `restartGame` from `src/app.js` lines 156-168 (also the initial value
of the globals, lines 15-17, and the spec's `newGame`): empty board,
`"X"` to move, game not over. -/
def restartGame : GameState :=
  { board := List.replicate 9 none, currentPlayer := Mark.X, gameOver := false }

/-- Folding a list of indices through `attemptMove`, requiring every move
to succeed: the state after a sequence of successful calls. -/
def applyMoves (s : GameState) : List Int → Option GameState
  | [] => some s
  | i :: rest =>
    match attemptMove s i with
    | (s', none) => applyMoves s' rest
    | (_, some _) => none

/-- The four arrow keys of `handleKeyDown`. -/
inductive Direction : Type
  | up : Direction
  | down : Direction
  | left : Direction
  | right : Direction
deriving DecidableEq, Repr

/-- The arrow-key branch of `handleKeyDown`, `src/app.js` lines 188-201:
decompose the index into row and column, clamp the stepped coordinate
with `Math.max`/`Math.min`, recompose.  The spec names this `focusStep`. -/
def focusStep (i : Nat) (d : Direction) : Nat :=
  let row : Int := (i : Int) / 3
  let col : Int := (i : Int) % 3
  let newRow : Int :=
    match d with
    | Direction.up => max 0 (row - 1)
    | Direction.down => min 2 (row + 1)
    | _ => row
  let newCol : Int :=
    match d with
    | Direction.left => max 0 (col - 1)
    | Direction.right => min 2 (col + 1)
    | _ => col
  (newRow * 3 + newCol).toNat

/-- The spec's wording of `focusStep` (§4.1), written independently from
the sentence "row = index div 3, col = index mod 3; Up: row = max(0,row-1);
Down: row = min(2,row+1); Left: col = max(0,col-1); Right: col =
min(2,col+1); recompose row*3+col". -/
def focusStepSpec (i : Nat) (d : Direction) : Nat :=
  let row : Int := (i : Int) / 3
  let col : Int := (i : Int) % 3
  match d with
  | Direction.up => (max 0 (row - 1) * 3 + col).toNat
  | Direction.down => (min 2 (row + 1) * 3 + col).toNat
  | Direction.left => (row * 3 + max 0 (col - 1)).toNat
  | Direction.right => (row * 3 + min 2 (col + 1)).toNat

/-- The spec predicate "the three cells of line `t` are equal and
non-empty, all holding mark `m`". -/
def lineSat (b : List Cell) (t : Nat × Nat × Nat) (m : Mark) : Prop :=
  getCell b t.1 = some m ∧ getCell b t.2.1 = some m ∧ getCell b t.2.2 = some m

instance (b : List Cell) (t : Nat × Nat × Nat) (m : Mark) : Decidable (lineSat b t m) := by
  unfold lineSat; infer_instance

instance : Fintype Mark where
  elems := {Mark.X, Mark.O}
  complete := by intro x; cases x <;> simp

/-- The error the original claim C3 prescribes: preconditions in order,
with `invalidIndex` for an index outside `0..8` (modelled from the spec:
the code has no such branch). -/
def claimedErrorC3 (s : GameState) (i : Int) : Option MoveError :=
  if s.gameOver then some MoveError.gameOver
  else if ¬(0 ≤ i ∧ i ≤ 8) then some MoveError.invalidIndex
  else if s.board.get? i.toNat ≠ some none then some MoveError.cellOccupied
  else none

/-- The amended error discipline: `gameOver` first, then `cellOccupied`
both for an index outside `0..8` and for an occupied in-range cell; the
code never reports `invalidIndex`. -/
def amendedErrorC3 (s : GameState) (i : Int) : Option MoveError :=
  if s.gameOver then some MoveError.gameOver
  else if ¬(0 ≤ i ∧ i ≤ 8) then some MoveError.cellOccupied
  else if s.board.get? i.toNat ≠ some none then some MoveError.cellOccupied
  else none

/-! ### Helper lemmas -/

theorem switchMark_switchMark (m : Mark) : switchMark (switchMark m) = m := by
  cases m <;> rfl

theorem switchMark_ne (m : Mark) : switchMark m ≠ m := by
  cases m <;> decide

theorem winLine_eq_some_iff (b : List Cell) (t : Nat × Nat × Nat) (m : Mark) :
    winLine b t = some m ↔ lineSat b t m := by
  unfold winLine lineSat
  cases h : getCell b t.1 with
  | none => simp [h]
  | some m' =>
    dsimp only
    by_cases h2 : getCell b t.2.1 = some m' ∧ getCell b t.2.2 = some m'
    · rw [if_pos h2]
      constructor
      · intro hsome
        obtain rfl : m' = m := Option.some_inj.mp hsome
        exact ⟨rfl, h2.1, h2.2⟩
      · rintro ⟨h1, -, -⟩
        exact h1
    · rw [if_neg h2]
      constructor
      · intro hc
        exact Option.noConfusion hc
      · rintro ⟨h1, ha, hb⟩
        obtain rfl : m' = m := Option.some_inj.mp h1
        exact absurd ⟨ha, hb⟩ h2

theorem winLine_eq_none_iff (b : List Cell) (t : Nat × Nat × Nat) :
    winLine b t = none ↔ ∀ m, ¬ lineSat b t m := by
  constructor
  · intro h m hm
    rw [← winLine_eq_some_iff] at hm
    rw [h] at hm
    exact Option.noConfusion hm
  · intro h
    cases hw : winLine b t with
    | none => rfl
    | some m => exact absurd ((winLine_eq_some_iff b t m).mp hw) (h m)

theorem getWinnerAux_eq_none_iff (b : List Cell) (ls : List (Nat × Nat × Nat)) :
    getWinnerAux b ls = none ↔ ∀ t ∈ ls, winLine b t = none := by
  induction ls with
  | nil => simp [getWinnerAux]
  | cons t rest ih =>
    rw [getWinnerAux]
    cases h : winLine b t with
    | some m =>
      simp only [List.mem_cons]
      constructor
      · intro hc
        exact Option.noConfusion hc
      · intro hall
        exact absurd (hall t (Or.inl rfl)) (by simp [h])
    | none => simp [ih, h]

theorem getWinnerAux_eq_some_iff (b : List Cell) (ls : List (Nat × Nat × Nat))
    (m : Mark) (l : Nat × Nat × Nat) :
    getWinnerAux b ls = some (m, l) ↔
      ∃ pre post, ls = pre ++ l :: post ∧ winLine b l = some m ∧
        ∀ t ∈ pre, winLine b t = none := by
  induction ls with
  | nil =>
    simp only [getWinnerAux]
    constructor
    · intro hc
      exact Option.noConfusion hc
    · rintro ⟨pre, post, heq, -, -⟩
      exact absurd heq.symm (List.append_ne_nil_of_right_ne_nil pre (List.cons_ne_nil l post))
  | cons t rest ih =>
    rw [getWinnerAux]
    cases h : winLine b t with
    | some m0 =>
      constructor
      · intro hc
        obtain ⟨rfl, rfl⟩ : m0 = m ∧ t = l := by
          have := Option.some_inj.mp hc
          exact ⟨congrArg Prod.fst this, congrArg Prod.snd this⟩
        exact ⟨[], rest, rfl, h, by simp⟩
      · rintro ⟨pre, post, heq, hsat, hpre⟩
        cases pre with
        | nil =>
          obtain ⟨rfl, rfl⟩ : t = l ∧ rest = post := by
            simpa using heq
          rw [h] at hsat
          rw [Option.some_inj.mp hsat]
        | cons p pre' =>
          obtain ⟨rfl, -⟩ : t = p ∧ rest = pre' ++ l :: post := by
            simpa using heq
          exact absurd h (by simp [hpre t (List.mem_cons_self t pre')])
    | none =>
      rw [ih]
      constructor
      · rintro ⟨pre, post, rfl, hsat, hpre⟩
        refine ⟨t :: pre, post, rfl, hsat, ?_⟩
        intro x hx
        rcases List.mem_cons.mp hx with rfl | hx'
        · exact h
        · exact hpre x hx'
      · rintro ⟨pre, post, heq, hsat, hpre⟩
        cases pre with
        | nil =>
          obtain ⟨rfl, -⟩ : t = l ∧ rest = post := by simpa using heq
          rw [h] at hsat
          exact absurd hsat (by simp)
        | cons p pre' =>
          obtain ⟨rfl, rfl⟩ : t = p ∧ rest = pre' ++ l :: post := by simpa using heq
          exact ⟨pre', post, rfl, hsat, fun x hx => hpre x (List.mem_cons_of_mem t hx)⟩

theorem getWinner_eq_none_iff (b : List Cell) :
    getWinner b = none ↔ ∀ t ∈ WIN_LINES, ∀ m, ¬ lineSat b t m := by
  rw [getWinner, getWinnerAux_eq_none_iff]
  constructor
  · intro h t ht
    exact (winLine_eq_none_iff b t).mp (h t ht)
  · intro h t ht
    exact (winLine_eq_none_iff b t).mpr (h t ht)

theorem evaluate_eq_Won_iff (b : List Cell) (m : Mark) (l : Nat × Nat × Nat) :
    evaluate b = Status.Won m l ↔ getWinner b = some (m, l) := by
  unfold evaluate
  cases hg : getWinner b with
  | some p =>
    cases p with
    | mk m0 l0 => simp
  | none =>
    cases hd : isDraw b <;> simp [hd]

theorem evaluate_InProgress_iff (b : List Cell) :
    ((getWinner b).isSome || isDraw b) = false ↔ evaluate b = Status.InProgress := by
  unfold evaluate
  cases hg : getWinner b with
  | some p =>
    cases p with
    | mk m0 l0 => simp
  | none =>
    cases hd : isDraw b <;> simp [hd]

theorem attemptMove_fail_eq (s : GameState) (i : Int) (s' : GameState) (e : MoveError)
    (h : attemptMove s i = (s', some e)) : s' = s := by
  unfold attemptMove at h
  split_ifs at h
  · exact (congrArg Prod.fst h).symm
  · exact (congrArg Prod.fst h).symm
  · exact absurd (congrArg Prod.snd h) (by simp)

theorem attemptMove_success_eq (s : GameState) (i : Int) (s' : GameState)
    (h : attemptMove s i = (s', none)) :
    s.gameOver = false ∧ lookupJS s.board i = some none ∧
      s' = { board := s.board.set i.toNat (some s.currentPlayer),
             currentPlayer := switchMark s.currentPlayer,
             gameOver := (getWinner (s.board.set i.toNat (some s.currentPlayer))).isSome
               || isDraw (s.board.set i.toNat (some s.currentPlayer)) } := by
  unfold attemptMove at h
  split_ifs at h with h1 h2
  · exact absurd (congrArg Prod.snd h) (by simp)
  · exact absurd (congrArg Prod.snd h) (by simp)
  · refine ⟨by simpa using h1, by simpa using h2, ?_⟩
    exact (congrArg Prod.fst h).symm

theorem lookupJS_eq_some_none (b : List Cell) (i : Int) (h : lookupJS b i = some none) :
    0 ≤ i ∧ b.get? i.toNat = some none := by
  unfold lookupJS at h
  by_cases h1 : i < 0
  · rw [if_pos h1] at h
    exact Option.noConfusion h
  · rw [if_neg h1] at h
    exact ⟨le_of_not_lt h1, h⟩

/-! ### Claim theorems -/

/-- C3 (amended): `attemptMove` checks its preconditions in order and
fails with `gameOver` when the game is over, otherwise with
`cellOccupied` both when the index is outside `0..8` and when the
in-range cell is non-empty; it never reports `invalidIndex`. -/
theorem attemptMove_error_order (s : GameState) (i : Int)
    (hlen : s.board.length = 9) :
    (attemptMove s i).2 = amendedErrorC3 s i := by
  unfold attemptMove amendedErrorC3 lookupJS
  cases hgo : s.gameOver with
  | true => simp
  | false =>
    simp only [Bool.false_eq_true, if_false]
    by_cases h1 : 0 ≤ i ∧ i ≤ 8
    · by_cases h2 : s.board.get? i.toNat = some none <;>
        simp [h1, h2, not_lt.mpr h1.1, apply_ite]
    · by_cases hneg : i < 0
      · simp [hneg, h1, apply_ite]
      · have hg : s.board.get? i.toNat = none := by
          apply List.get?_eq_none.mpr
          rw [hlen]
          omega
        rw [List.get?_eq_getElem?] at hg
        simp [hneg, h1, hg, apply_ite]

/-- C3 counterexample: the claim prescribes `invalidIndex` for index 9 on
a fresh game, but `attemptMove` reports `cellOccupied` there. -/
theorem attemptMove_error_order_counterexample :
    (attemptMove restartGame 9).2 ≠ claimedErrorC3 restartGame 9 := by decide

/-- C3 witness: the amended error discipline at a fresh game and index 9. -/
theorem attemptMove_error_order_witness :
    restartGame.board.length = 9 ∧
      (attemptMove restartGame 9).2 = amendedErrorC3 restartGame 9 :=
  ⟨by decide, attemptMove_error_order restartGame 9 (by decide)⟩

/-- C4: whenever `attemptMove` fails — with any of the three errors —
the returned state is exactly the input state: board, current player
and game-over flag untouched. -/
theorem failed_move_preserves_state (s : GameState) (i : Int) (e : MoveError)
    (h : (attemptMove s i).2 = some e) : (attemptMove s i).1 = s := by
  cases hm : attemptMove s i with
  | mk s1 r =>
    rw [hm] at h
    cases r with
    | none => exact Option.noConfusion h
    | some e' => simpa using attemptMove_fail_eq s i s1 e' hm

/-- C4 witness: the occupied-style rejection at index 9 on a fresh game
leaves the state unchanged. -/
theorem failed_move_preserves_state_witness :
    (attemptMove restartGame 9).2 = some MoveError.cellOccupied ∧
      (attemptMove restartGame 9).1 = restartGame :=
  ⟨by decide, failed_move_preserves_state restartGame 9 MoveError.cellOccupied (by decide)⟩

/-- C10: for any integer index outside `0..8` (negative or greater than
8) on a nine-cell board, `attemptMove` leaves the state — board, its
length, current player and game-over flag — unchanged, and (when the
game is not over, so the index check is reached) rejects the move through
the occupied-cell branch, because the out-of-range lookup yields the
non-null `undefined` sentinel.  In particular it never writes a mark
outside the nine cells. -/
theorem out_of_range_move_rejected (s : GameState) (i : Int)
    (hlen : s.board.length = 9) (hout : i < 0 ∨ 8 < i) :
    (attemptMove s i).1 = s ∧
      (s.gameOver = false → (attemptMove s i).2 = some MoveError.cellOccupied) := by
  have hl : lookupJS s.board i = none := by
    unfold lookupJS
    rcases hout with h | h
    · rw [if_pos h]
    · rw [if_neg (by omega)]
      apply List.get?_eq_none.mpr
      rw [hlen]
      omega
  unfold attemptMove
  cases hgo : s.gameOver with
  | true => simp
  | false => simp [hl]

/-- C10 witness: index `-1` on a fresh game is rejected as occupied and
changes nothing. -/
theorem out_of_range_move_rejected_witness :
    (attemptMove restartGame (-1)).1 = restartGame ∧
      (restartGame.gameOver = false →
        (attemptMove restartGame (-1)).2 = some MoveError.cellOccupied) :=
  out_of_range_move_rejected restartGame (-1) (by decide) (Or.inl (by decide))

/-- C7: for every start index in `0..8` and every arrow direction, the
focus move lands in `0..8`, agrees with the spec's row/column clamping
formula, and clamps (rather than wraps) at the four edges. -/
theorem focusStep_conforms (i : Nat) (hi : i ≤ 8) (d : Direction) :
    focusStep i d ≤ 8 ∧ focusStep i d = focusStepSpec i d ∧
      (i / 3 = 0 → focusStep i Direction.up = i) ∧
      (i / 3 = 2 → focusStep i Direction.down = i) ∧
      (i % 3 = 0 → focusStep i Direction.left = i) ∧
      (i % 3 = 2 → focusStep i Direction.right = i) := by
  interval_cases i <;> cases d <;> decide

/-- C7 witness: the conformance statement at index 0 stepping up. -/
theorem focusStep_conforms_witness :
    (0 : Nat) ≤ 8 ∧
      (focusStep 0 Direction.up ≤ 8 ∧
        focusStep 0 Direction.up = focusStepSpec 0 Direction.up ∧
        ((0 : Nat) / 3 = 0 → focusStep 0 Direction.up = 0) ∧
        ((0 : Nat) / 3 = 2 → focusStep 0 Direction.down = 0) ∧
        ((0 : Nat) % 3 = 0 → focusStep 0 Direction.left = 0) ∧
        ((0 : Nat) % 3 = 2 → focusStep 0 Direction.right = 0)) :=
  ⟨by decide, focusStep_conforms 0 (by decide) Direction.up⟩

/-- C8 counterexample: the spec's "draw" sequence [0,1,2,3,5,6,4,7,8],
played from a fresh game with marks alternating from X, does not end in
a draw — X completes column [2,5,8] on the last move. -/
theorem draw_sequence_claim_false :
    (applyMoves restartGame [0, 1, 2, 3, 5, 6, 4, 7, 8]).map (fun s => evaluate s.board) ≠
      some Status.Draw := by decide

/-- C8 (amended): from a fresh game, the moves at indices
[0,1,2,3,5,6,4,7,8] all succeed and end in `Won X (2,5,8)` — X's marks
land on 0,2,5,4,8 and the column (2,5,8) is completed by the ninth move —
with final board `X O X / O X X / O O X`. -/
theorem draw_sequence_actual_result :
    applyMoves restartGame [0, 1, 2, 3, 5, 6, 4, 7, 8] =
      some { board := [some Mark.X, some Mark.O, some Mark.X,
                       some Mark.O, some Mark.X, some Mark.X,
                       some Mark.O, some Mark.O, some Mark.X],
             currentPlayer := Mark.O, gameOver := true } ∧
      evaluate [some Mark.X, some Mark.O, some Mark.X,
                some Mark.O, some Mark.X, some Mark.X,
                some Mark.O, some Mark.O, some Mark.X] = Status.Won Mark.X (2, 5, 8) := by
  decide

/-- C9 counterexample: the claimed scenario 0, 4, 1, 2 from a fresh game
leaves the board in progress — the fourth move places O (not X) at cell
2, since turns alternate — so the status is not `Won X (0,1,2)` and a
further move at cell 3 is not rejected. -/
theorem win_scenario_claim_false :
    (applyMoves restartGame [0, 4, 1, 2]).map (fun s => evaluate s.board) =
        some Status.InProgress ∧
      (applyMoves restartGame [0, 4, 1, 2]).map (fun s => s.board.get? 2) =
        some (some (some Mark.O)) ∧
      Status.InProgress ≠ Status.Won Mark.X (0, 1, 2) := by decide

/-- C9 (amended): from a fresh game, the moves 0(X), 4(O), 1(X), 5(O),
2(X) yield `Won X (0,1,2)`, and a subsequent `attemptMove` at cell 3
fails with `gameOver` leaving the state unchanged. -/
theorem win_scenario_actual_result :
    applyMoves restartGame [0, 4, 1, 5, 2] =
      some { board := [some Mark.X, some Mark.X, some Mark.X,
                       none, some Mark.O, some Mark.O,
                       none, none, none],
             currentPlayer := Mark.O, gameOver := true } ∧
      evaluate [some Mark.X, some Mark.X, some Mark.X,
                none, some Mark.O, some Mark.O,
                none, none, none] = Status.Won Mark.X (0, 1, 2) ∧
      attemptMove { board := [some Mark.X, some Mark.X, some Mark.X,
                              none, some Mark.O, some Mark.O,
                              none, none, none],
                    currentPlayer := Mark.O, gameOver := true } 3 =
        ({ board := [some Mark.X, some Mark.X, some Mark.X,
                     none, some Mark.O, some Mark.O,
                     none, none, none],
           currentPlayer := Mark.O, gameOver := true }, some MoveError.gameOver) := by
  decide

/-- C1: `evaluate` returns `Won m l` exactly for the first line, in the
fixed enumeration order of `WIN_LINES` (3 rows top-to-bottom, 3 columns
left-to-right, then the two diagonals), whose three cells all hold the
same non-empty mark; it returns `Draw` exactly when all nine cells are
non-empty and no line is satisfied; and `InProgress` exactly when no
line is satisfied and some cell is still empty. -/
theorem evaluate_matches_status_spec (b : List Cell) (hb : b.length = 9) :
    ((∃ m l, evaluate b = Status.Won m l) ↔
        ∃ t ∈ WIN_LINES, ∃ m, lineSat b t m) ∧
      (∀ m l, evaluate b = Status.Won m l ↔
        ∃ pre post, WIN_LINES = pre ++ l :: post ∧ lineSat b l m ∧
          ∀ t ∈ pre, ∀ m', ¬ lineSat b t m') ∧
      (evaluate b = Status.Draw ↔
        ((∀ c ∈ b, c.isSome) ∧ ∀ t ∈ WIN_LINES, ∀ m, ¬ lineSat b t m)) ∧
      (evaluate b = Status.InProgress ↔
        ((¬ ∀ c ∈ b, c.isSome) ∧ ∀ t ∈ WIN_LINES, ∀ m, ¬ lineSat b t m)) := by
  have hWon : ∀ m l, evaluate b = Status.Won m l ↔
      ∃ pre post, WIN_LINES = pre ++ l :: post ∧ lineSat b l m ∧
        ∀ t ∈ pre, ∀ m', ¬ lineSat b t m' := by
    intro m l
    rw [evaluate_eq_Won_iff, getWinner, getWinnerAux_eq_some_iff]
    constructor
    · rintro ⟨pre, post, heq, hsat, hpre⟩
      refine ⟨pre, post, heq, (winLine_eq_some_iff b l m).mp hsat, ?_⟩
      intro t ht
      exact (winLine_eq_none_iff b t).mp (hpre t ht)
    · rintro ⟨pre, post, heq, hsat, hpre⟩
      refine ⟨pre, post, heq, (winLine_eq_some_iff b l m).mpr hsat, ?_⟩
      intro t ht
      exact (winLine_eq_none_iff b t).mpr (hpre t ht)
  have hEx : (∃ m l, evaluate b = Status.Won m l) ↔
      ∃ t ∈ WIN_LINES, ∃ m, lineSat b t m := by
    constructor
    · rintro ⟨m, l, hw⟩
      rw [evaluate_eq_Won_iff] at hw
      obtain ⟨pre, post, heq, hsat, -⟩ :=
        (getWinnerAux_eq_some_iff b WIN_LINES m l).mp hw
      exact ⟨l, heq ▸ List.mem_append_right pre (List.mem_cons_self l post),
        m, (winLine_eq_some_iff b l m).mp hsat⟩
    · rintro ⟨t, ht, m, hm⟩
      cases hg : getWinner b with
      | some p =>
        exact ⟨p.1, p.2, by rw [evaluate_eq_Won_iff]; rw [hg]⟩
      | none =>
        exact absurd hm ((getWinner_eq_none_iff b).mp hg t ht m)
  have hAll : (b.all (fun v => v.isSome) = true) ↔ ∀ c ∈ b, c.isSome := by
    rw [List.all_eq_true]
  have hDraw : evaluate b = Status.Draw ↔
      ((∀ c ∈ b, c.isSome) ∧ ∀ t ∈ WIN_LINES, ∀ m, ¬ lineSat b t m) := by
    unfold evaluate
    cases hg : getWinner b with
    | some p =>
      cases p with
      | mk m0 l0 =>
        simp only [reduceCtorEq, false_iff, not_and]
        intro hfull hnone
        exact absurd ((getWinner_eq_none_iff b).mpr hnone) (by simp [hg])
    | none =>
      have hd : isDraw b = b.all (fun v => v.isSome) := by
        unfold isDraw
        rw [hg]
        simp
      rw [hd]
      cases hall : b.all (fun v => v.isSome) with
      | true =>
        simp only [if_true, true_iff]
        exact ⟨hAll.mp hall, (getWinner_eq_none_iff b).mp hg⟩
      | false =>
        simp only [Bool.false_eq_true, if_false]
        constructor
        · intro hc
          exact absurd hc (by simp)
        · rintro ⟨hfull, -⟩
          exact absurd (hAll.mpr hfull) (by simp [hall])
  have hProg : evaluate b = Status.InProgress ↔
      ((¬ ∀ c ∈ b, c.isSome) ∧ ∀ t ∈ WIN_LINES, ∀ m, ¬ lineSat b t m) := by
    unfold evaluate
    cases hg : getWinner b with
    | some p =>
      cases p with
      | mk m0 l0 =>
        simp only [reduceCtorEq, false_iff, not_and]
        intro hfull hnone
        exact absurd ((getWinner_eq_none_iff b).mpr hnone) (by simp [hg])
    | none =>
      have hd : isDraw b = b.all (fun v => v.isSome) := by
        unfold isDraw
        rw [hg]
        simp
      rw [hd]
      cases hall : b.all (fun v => v.isSome) with
      | true =>
        simp only [if_true]
        constructor
        · intro hc
          exact absurd hc (by simp)
        · rintro ⟨hnotfull, -⟩
          exact absurd (hAll.mp hall) hnotfull
      | false =>
        simp only [Bool.false_eq_true, if_false, true_iff]
        refine ⟨fun hfull => absurd (hAll.mpr hfull) (by simp [hall]), ?_⟩
        exact (getWinner_eq_none_iff b).mp hg
  exact ⟨hEx, hWon, hDraw, hProg⟩

/-- C1 witness: the classification at the empty nine-cell board, which is
in progress. -/
theorem evaluate_matches_status_spec_witness :
    (List.replicate 9 (none : Cell)).length = 9 ∧
      (evaluate (List.replicate 9 (none : Cell)) = Status.InProgress ↔
        ((¬ ∀ c ∈ List.replicate 9 (none : Cell), c.isSome) ∧
          ∀ t ∈ WIN_LINES, ∀ m, ¬ lineSat (List.replicate 9 (none : Cell)) t m)) :=
  ⟨by decide, (evaluate_matches_status_spec (List.replicate 9 none) (by decide)).2.2.2⟩

/-- C2: on an in-progress state, a move at an empty in-range index
succeeds; the returned state has that cell set to the mover's mark, the
turn flipped to the other mark, and its game-over flag — the code's
status field — agreeing with `evaluate` on the new board (`false`
exactly when `evaluate` says the game is still in progress). -/
theorem applyMove_success_spec (s : GameState) (i : Int)
    (hgo : s.gameOver = false) (h0 : 0 ≤ i) (h8 : i ≤ 8)
    (hcell : s.board.get? i.toNat = some none) :
    (attemptMove s i).2 = none ∧
      (attemptMove s i).1.board = s.board.set i.toNat (some s.currentPlayer) ∧
      (attemptMove s i).1.currentPlayer = switchMark s.currentPlayer ∧
      ((attemptMove s i).1.gameOver = false ↔
        evaluate ((attemptMove s i).1.board) = Status.InProgress) := by
  have hl : lookupJS s.board i = some none := by
    unfold lookupJS
    rw [if_neg (not_lt.mpr h0)]
    exact hcell
  have hA : attemptMove s i =
      ({ board := s.board.set i.toNat (some s.currentPlayer),
         currentPlayer := switchMark s.currentPlayer,
         gameOver := (getWinner (s.board.set i.toNat (some s.currentPlayer))).isSome
           || isDraw (s.board.set i.toNat (some s.currentPlayer)) }, none) := by
    unfold attemptMove
    rw [hgo, hl]
    simp
  rw [hA]
  exact ⟨rfl, rfl, rfl, evaluate_InProgress_iff _⟩

/-- C2 witness: the first move of a fresh game, at index 0. -/
theorem applyMove_success_spec_witness :
    (attemptMove restartGame 0).2 = none ∧
      (attemptMove restartGame 0).1.board =
        restartGame.board.set (Int.toNat 0) (some restartGame.currentPlayer) ∧
      (attemptMove restartGame 0).1.currentPlayer = switchMark restartGame.currentPlayer ∧
      ((attemptMove restartGame 0).1.gameOver = false ↔
        evaluate ((attemptMove restartGame 0).1.board) = Status.InProgress) :=
  applyMove_success_spec restartGame 0 rfl (by decide) (by decide) (by decide)

theorem applyMoves_currentPlayer (ms : List Int) :
    ∀ s s', applyMoves s ms = some s' →
      s'.currentPlayer =
        if ms.length % 2 = 0 then s.currentPlayer else switchMark s.currentPlayer := by
  induction ms with
  | nil =>
    intro s s' h
    obtain rfl : s = s' := by simpa [applyMoves] using h
    simp
  | cons i rest ih =>
    intro s s' h
    rw [applyMoves] at h
    cases hm : attemptMove s i with
    | mk s1 r =>
      rw [hm] at h
      cases r with
      | some e => exact Option.noConfusion h
      | none =>
        have hcp : s1.currentPlayer = switchMark s.currentPlayer := by
          rw [(attemptMove_success_eq s i s1 hm).2.2]
        rw [ih s1 s' h, hcp]
        by_cases hp : rest.length % 2 = 0
        · have h1 : ¬ (rest.length + 1) % 2 = 0 := by omega
          simp [hp, h1]
        · have h1 : (rest.length + 1) % 2 = 0 := by omega
          simp [hp, h1, switchMark_switchMark]

/-- C5: starting from a fresh game, after any sequence of successful
moves the current player is X if and only if the number of moves is
even; and a restart always hands the turn back to X. -/
theorem turn_alternation (ms : List Int) (s' : GameState)
    (h : applyMoves restartGame ms = some s') :
    (s'.currentPlayer = Mark.X ↔ ms.length % 2 = 0) ∧
      restartGame.currentPlayer = Mark.X := by
  refine ⟨?_, rfl⟩
  have hc := applyMoves_currentPlayer ms restartGame s' h
  by_cases hp : ms.length % 2 = 0
  · rw [if_pos hp] at hc
    exact iff_of_true (by rw [hc]; rfl) hp
  · rw [if_neg hp] at hc
    refine iff_of_false ?_ hp
    rw [hc]
    exact fun hco => Mark.noConfusion hco

/-- C5 witness: after the single move at index 0 the current player is
O, and one is odd. -/
theorem turn_alternation_witness :
    (({ board := [some Mark.X, none, none, none, none, none, none, none, none],
        currentPlayer := Mark.O, gameOver := false } : GameState).currentPlayer = Mark.X ↔
        ([(0 : Int)].length % 2 = 0)) ∧
      restartGame.currentPlayer = Mark.X :=
  turn_alternation [0]
    { board := [some Mark.X, none, none, none, none, none, none, none, none],
      currentPlayer := Mark.O, gameOver := false } (by decide)

/-- C6: a cell that holds a mark before an `attemptMove` call holds the
same mark after it, whether the call succeeds or fails; and the restart
board has every in-range cell empty again. -/
theorem cell_never_reset (s : GameState) (i : Int) (j : Nat) (m : Mark)
    (h : s.board.get? j = some (some m)) :
    (attemptMove s i).1.board.get? j = some (some m) ∧
      (j < 9 → restartGame.board.get? j = some none) := by
  refine ⟨?_, fun hj => ?_⟩
  · cases hm : attemptMove s i with
    | mk s1 r =>
      cases r with
      | some e =>
        rw [attemptMove_fail_eq s i s1 e hm]
        exact h
      | none =>
        obtain ⟨-, hl, rfl⟩ := attemptMove_success_eq s i s1 hm
        obtain ⟨h0, hcell⟩ := lookupJS_eq_some_none s.board i hl
        have hne : i.toNat ≠ j := by
          intro heq
          rw [heq, h] at hcell
          exact Option.noConfusion (Option.some_inj.mp hcell)
        rw [List.get?_eq_getElem?] at h ⊢
        rw [List.getElem?_set_ne hne]
        exact h
  · rw [List.get?_eq_getElem?]
    show (List.replicate 9 (none : Cell))[j]? = some none
    rw [List.getElem?_replicate_of_lt hj]

/-- C6 witness: cell 0 holding X survives a (rejected) second move at
index 0, and cell 0 of the restart board is empty. -/
theorem cell_never_reset_witness :
    (attemptMove { board := [some Mark.X, none, none, none, none, none, none, none, none],
                   currentPlayer := Mark.O, gameOver := false } 0).1.board.get? 0 =
        some (some Mark.X) ∧
      (0 < 9 → restartGame.board.get? 0 = some none) :=
  cell_never_reset
    { board := [some Mark.X, none, none, none, none, none, none, none, none],
      currentPlayer := Mark.O, gameOver := false } 0 0 Mark.X (by decide)
